import Mathlib

/-!
# supergloo installers: consul and istio

A shallow embedding of `pkg/install/consul/consul_installer.go` and
`pkg/install/istio/istio_installer.go`.

* Go strings are modelled by `String`; the templates are ASCII, so bytes and
  characters coincide.
* A Go pointer that the code compares with `nil` is an `Option`.
* A Go function returning `error` returns an `Outcome`: `nil`, an error value,
  or a runtime panic (nil pointer dereference).
* The Kubernetes API server is modelled by `Cluster`: three name-keyed stores,
  and the list of requests the clients have issued.  A request can be answered by
  a failure that does not depend on the stores (network, permission, write
  conflict, ...): `Faults` says which requests of an operation are.  An object is
  stored as it was written: the server stamps no resource version on it.
* `shared.CreateCrds` is not among the sources and is modelled from the
  specification of the CRD bootstrap.
-/

set_option autoImplicit false

namespace Supergloo

/-! ## Go runtime: strings -/

/-- `strconv.FormatBool`. -/
def FormatBool (b : Bool) : String :=
  if b then "true" else "false"

/-- Whether `p` is an initial segment of the second list. -/
def startsWith (p : List Char) : List Char → Bool :=
  fun l => p.length ≤ l.length && (l.take p.length == p)

/-- Left-to-right scan of `strings.Replace(s, old, new, -1)` for a non-empty `old`:
`skip` counts the characters of a matched `old` that are still to be dropped. -/
def replaceScan (old new : List Char) : Nat → List Char → List Char
  | _, [] => []
  | skip + 1, _ :: cs => replaceScan old new skip cs
  | 0, c :: cs =>
    if startsWith old (c :: cs) then new ++ replaceScan old new (old.length - 1) cs
    else c :: replaceScan old new 0 cs

/-- `strings.Replace(s, old, new, -1)`: every non-overlapping occurrence of `old`,
found from the left, is replaced by `new`.  With an empty `old`, `new` is inserted
in front of every character and at the end. -/
def ReplaceAll (s old new : String) : String :=
  if old.data = [] then ⟨new.data ++ s.data.flatMap (fun c => c :: new.data)⟩
  else ⟨replaceScan old.data new.data 0 s.data⟩

/-- Whether `sub` occurs in `l` as a contiguous block. -/
def hasSub (sub : List Char) : List Char → Bool
  | [] => sub.isEmpty
  | c :: cs => startsWith sub (c :: cs) || hasSub sub cs

/-- `strings.Contains`. -/
def Contains (s sub : String) : Bool :=
  hasSub sub.data s.data

/-! ## Install request (`v1.Install`, the fields the installers read) -/

/-- `core.ResourceRef`: a reference to a secret. -/
structure ResourceRef where
  Name : String
  Namespace : String
deriving DecidableEq, Repr

/-- `v1.Encryption`. -/
structure Encryption where
  TlsEnabled : Bool
  Secret : Option ResourceRef
deriving DecidableEq, Repr

/-- `v1.Install`: `Encryption` is a pointer (`getOverrides` takes `*v1.Encryption`). -/
structure Install where
  Encryption : Option Encryption
deriving DecidableEq, Repr

/-! ## Override templates -/

namespace Consul

/-- The constant `WebhookCfg`. -/
def WebhookCfg : String := "consul-connect-injector-cfg"

/-- The constant `CrbName`. -/
def CrbName : String := "consul-crb"

/-- The constant `defaultNamespace`. -/
def defaultNamespace : String := "consul"

/-- The variable `overridesYaml` of the consul installer. -/
def overridesYaml : String :=
  "\n" ++
  "global:\n" ++
  "  # Change this to specify a version of consul.\n" ++
  "  # soloio/consul:latest was just published to provide a 1.4 container\n" ++
  "  # consul:1.3.0 is the latest container on docker hub from consul\n" ++
  "  image: \"soloio/consul:latest\"\n" ++
  "  imageK8S: \"hashicorp/consul-k8s:0.2.1\"\n" ++
  "\n" ++
  "server:\n" ++
  "  replicas: 1\n" ++
  "  bootstrapExpect: 1\n" ++
  "  connect: @@MTLS_ENABLED@@\n" ++
  "  disruptionBudget:\n" ++
  "    enabled: false\n" ++
  "    maxUnavailable: null\n" ++
  "\n" ++
  "connectInject:\n" ++
  "  enabled: @@MTLS_ENABLED@@\n"

/-- `getOverrides` of the consul installer. -/
def getOverrides (encryption : Option Encryption) : String :=
  match encryption with
  | none => overridesYaml
  | some e => ReplaceAll overridesYaml "@@MTLS_ENABLED@@" (FormatBool e.TlsEnabled)

/-- `ConsulInstaller.GetOverridesYaml`. -/
def GetOverridesYaml (install : Install) : String :=
  getOverrides install.Encryption

end Consul

namespace Istio

/-- The constant `CrbName`. -/
def CrbName : String := "istio-crb"

/-- The constant `defaultNamespace`. -/
def defaultNamespace : String := "istio-system"

/-- The variable `overridesYaml` of the istio installer. -/
def overridesYaml : String :=
  "#overrides\n" ++
  "global:\n" ++
  "  mtls:\n" ++
  "    enabled: @@MTLS_ENABLED@@\n" ++
  "  crds: false\n" ++
  "security:\n" ++
  "  selfSigned: @@SELF_SIGNED@@\n"

/-- `getOverrides` of the istio installer: the two flags start at `selfSigned = true`,
`mtlsEnabled = false` and are only reassigned under `encryption != nil`. -/
def getOverrides (encryption : Option Encryption) : String :=
  let flags : Bool × Bool :=
    match encryption with
    | some e =>
      if e.TlsEnabled then
        (if e.Secret.isSome then (false, true) else (true, true))
      else (true, false)
    | none => (true, false)
  let selfSignedString := FormatBool flags.1
  let tlsEnabledString := FormatBool flags.2
  let overridesWithMtlsFlag := ReplaceAll overridesYaml "@@MTLS_ENABLED@@" tlsEnabledString
  ReplaceAll overridesWithMtlsFlag "@@SELF_SIGNED@@" selfSignedString

/-- `IstioInstaller.GetOverridesYaml`. -/
def GetOverridesYaml (install : Install) : String :=
  getOverrides install.Encryption

end Istio

/-! ## The templates as the specification describes them -/

/-- The consul template as the specification describes its resolution: the text around
the two occurrences of the encryption-enabled token (under `server.connect` and under
`connectInject.enabled`), with `v` in the place of both. -/
def Consul.templateWith (v : String) : String :=
  "\nglobal:\n  # Change this to specify a version of consul.\n" ++
  "  # soloio/consul:latest was just published to provide a 1.4 container\n" ++
  "  # consul:1.3.0 is the latest container on docker hub from consul\n" ++
  "  image: \"soloio/consul:latest\"\n  imageK8S: \"hashicorp/consul-k8s:0.2.1\"\n\n" ++
  "server:\n  replicas: 1\n  bootstrapExpect: 1\n  connect: " ++ v ++
  "\n  disruptionBudget:\n    enabled: false\n    maxUnavailable: null\n\n" ++
  "connectInject:\n  enabled: " ++ v ++ "\n"

/-- The istio template as the specification describes its resolution: `m` in the place
of the encryption-enabled token and `s` in the place of the self-signed token. -/
def Istio.templateWith (m s : String) : String :=
  "#overrides\nglobal:\n  mtls:\n    enabled: " ++ m ++
  "\n  crds: false\nsecurity:\n  selfSigned: " ++ s ++ "\n"

/-! ## Go runtime: errors -/

/-- Error values: the Kubernetes status errors the installers can meet, and
`errors.Wrap` / `errors.Wrapf`. -/
inductive Err where
  | notFound (name : String)
  | alreadyExists (name : String)
  | badRequest (msg : String)
  | conflict (name : String)
  | other (msg : String)
  | wrap (cause : Err) (msg : String)
deriving DecidableEq, Repr

/-- What a call of a Go function of type `error` ends in. -/
inductive Outcome where
  | nil
  | err (e : Err)
  | panic
deriving DecidableEq, Repr

/-- `apierrors.IsAlreadyExists`. -/
def IsAlreadyExists : Err → Bool
  | .alreadyExists _ => true
  | _ => false

/-! ## Cluster objects -/

/-- `v1beta1.Webhook`: one admission webhook with its CA bundle and rules. -/
structure Webhook where
  Name : String
  CABundle : String
  Rules : List String
deriving DecidableEq, Repr

/-- `v1beta1.MutatingWebhookConfiguration`. -/
structure MutatingWebhookConfiguration where
  Name : String
  ResourceVersion : String
  Labels : List (String × String)
  Webhooks : List Webhook
deriving DecidableEq, Repr

/-- `v1beta1.CustomResourceDefinition`: name and schema. -/
structure CustomResourceDefinition where
  Name : String
  Schema : String
deriving DecidableEq, Repr

/-- `SecurityContextConstraints` of the openshift security API. -/
structure SecurityContextConstraints where
  Name : String
  ResourceVersion : String
  AllowPrivilegedContainer : Bool
  Groups : List String
  Users : List String
deriving DecidableEq, Repr

/-- A request issued to the API server. -/
inductive Request where
  | getWebhook (name : String)
  | createWebhook (name : String)
  | deleteWebhook (name : String)
  | createCrd (name : String)
  | getScc (name : String)
  | updateScc (name : String)
deriving DecidableEq, Repr

/-- The cluster: the stored objects of the three kinds the installers touch, each
store searched by object name, and the requests issued so far, oldest first. -/
structure Cluster where
  webhooks : List MutatingWebhookConfiguration
  crds : List CustomResourceDefinition
  sccs : List SecurityContextConstraints
  requests : List Request
deriving DecidableEq, Repr

/-- Which requests of an operation fail for a reason outside the stores: request
number `n` of the operation, counted from 0, is answered by `Err.other msg` when
the schedule holds `some msg` at `n`. -/
abbrev Faults := Nat → Option String

/-- The schedule without failures. -/
def noFaults : Faults := fun _ => none

/-- The schedule seen after the first request. -/
def Faults.next (f : Faults) : Faults := fun n => f (n + 1)

/-- Appends a request to the request log. -/
def Cluster.log (kube : Cluster) (r : Request) : Cluster :=
  { kube with requests := kube.requests ++ [r] }

/-- The stored webhook configuration of that name. -/
def Cluster.webhook (kube : Cluster) (name : String) : Option MutatingWebhookConfiguration :=
  kube.webhooks.find? (fun c => c.Name == name)

/-- The registered definition of that name. -/
def Cluster.crd (kube : Cluster) (name : String) : Option CustomResourceDefinition :=
  kube.crds.find? (fun c => c.Name == name)

/-- The stored security policy object of that name. -/
def Cluster.scc (kube : Cluster) (name : String) : Option SecurityContextConstraints :=
  kube.sccs.find? (fun c => c.Name == name)

/-! ## API operations -/

/-- `MutatingWebhookConfigurations().Get(name, ...)`. -/
def getWebhook (fault : Option String) (kube : Cluster) (name : String) :
    Cluster × Except Err MutatingWebhookConfiguration :=
  let kube1 := kube.log (.getWebhook name)
  match fault with
  | some msg => (kube1, .error (.other msg))
  | none =>
    match kube.webhook name with
    | none => (kube1, .error (.notFound name))
    | some cfg => (kube1, .ok cfg)

/-- `MutatingWebhookConfigurations().Create(cfg)`: refused when the object carries a
resource version, and when an object of that name is stored. -/
def createWebhook (fault : Option String) (kube : Cluster) (cfg : MutatingWebhookConfiguration) :
    Cluster × Except Err MutatingWebhookConfiguration :=
  let kube1 := kube.log (.createWebhook cfg.Name)
  match fault with
  | some msg => (kube1, .error (.other msg))
  | none =>
    if cfg.ResourceVersion ≠ "" then
      (kube1, .error (.badRequest "resourceVersion should not be set on objects to be created"))
    else
      match kube.webhook cfg.Name with
      | some _ => (kube1, .error (.alreadyExists cfg.Name))
      | none => ({ kube1 with webhooks := kube1.webhooks ++ [cfg] }, .ok cfg)

/-- `MutatingWebhookConfigurations().Delete(name, ...)`. -/
def deleteWebhook (fault : Option String) (kube : Cluster) (name : String) :
    Cluster × Option Err :=
  let kube1 := kube.log (.deleteWebhook name)
  match fault with
  | some msg => (kube1, some (.other msg))
  | none =>
    match kube.webhook name with
    | none => (kube1, some (.notFound name))
    | some _ =>
      ({ kube1 with webhooks := kube1.webhooks.filter (fun c => !(c.Name == name)) }, none)

/-- `CustomResourceDefinitions().Create(crd)`. -/
def createCrd (fault : Option String) (kube : Cluster) (crd : CustomResourceDefinition) :
    Cluster × Except Err CustomResourceDefinition :=
  let kube1 := kube.log (.createCrd crd.Name)
  match fault with
  | some msg => (kube1, .error (.other msg))
  | none =>
    match kube.crd crd.Name with
    | some _ => (kube1, .error (.alreadyExists crd.Name))
    | none => ({ kube1 with crds := kube1.crds ++ [crd] }, .ok crd)

/-- `SecurityContextConstraints().Get(name, ...)`. -/
def getScc (fault : Option String) (kube : Cluster) (name : String) :
    Cluster × Except Err SecurityContextConstraints :=
  let kube1 := kube.log (.getScc name)
  match fault with
  | some msg => (kube1, .error (.other msg))
  | none =>
    match kube.scc name with
    | none => (kube1, .error (.notFound name))
    | some scc => (kube1, .ok scc)

/-- `SecurityContextConstraints().Update(scc)`: the stored object of that name is
replaced as a whole; refused when the resource version is not the stored one. -/
def updateScc (fault : Option String) (kube : Cluster) (scc : SecurityContextConstraints) :
    Cluster × Except Err SecurityContextConstraints :=
  let kube1 := kube.log (.updateScc scc.Name)
  match fault with
  | some msg => (kube1, .error (.other msg))
  | none =>
    match kube.scc scc.Name with
    | none => (kube1, .error (.notFound scc.Name))
    | some stored =>
      if stored.ResourceVersion ≠ scc.ResourceVersion then
        (kube1, .error (.conflict scc.Name))
      else
        ({ kube1 with sccs := kube1.sccs.map (fun o => if o.Name == scc.Name then scc else o) },
          .ok scc)

/-- `errors.Wrap(err, msg)` applied to what a call ended in: `nil` stays `nil`. -/
def Outcome.wrap (o : Outcome) (msg : String) : Outcome :=
  match o with
  | .nil => .nil
  | .err e => .err (.wrap e msg)
  | .panic => .panic

/-! ## Consul installer -/

namespace Consul

/-- `getFixedWebhookAdapter`: a copy of the input under the name `WebhookCfg`, with the
resource version cleared. -/
def getFixedWebhookAdapter (input : MutatingWebhookConfiguration) :
    MutatingWebhookConfiguration :=
  let fixed := input
  let fixed := { fixed with Name := WebhookCfg }
  { fixed with ResourceVersion := "" }

/-- The name `fmt.Sprintf("%s-%s", releaseName, WebhookCfg)`. -/
def releaseQualifiedName (releaseName : String) : String :=
  releaseName ++ "-" ++ WebhookCfg

/-- `updateMutatingWebhookAdapter`: get the configuration the chart created, create the
fixed copy, delete the old one. -/
def updateMutatingWebhookAdapter (faults : Faults) (kube : Cluster) (releaseName : String) :
    Cluster × Outcome :=
  let name := releaseQualifiedName releaseName
  match getWebhook (faults 0) kube name with
  | (kube1, .error err) => (kube1, .err err)
  | (kube1, .ok cfg) =>
    let fixedCfg := getFixedWebhookAdapter cfg
    match createWebhook (faults 1) kube1 fixedCfg with
    | (kube2, .error err) => (kube2, .err err)
    | (kube2, .ok _) =>
      match deleteWebhook (faults 2) kube2 name with
      | (kube3, some err) => (kube3, .err err)
      | (kube3, none) => (kube3, .nil)

/-- `ConsulInstaller.DoPreHelmInstall`. -/
def DoPreHelmInstall : Outcome := .nil

/-- `ConsulInstaller.DoPostHelmInstall`: `install.Encryption.TlsEnabled` dereferences the
`Encryption` pointer, which panics when it is nil. -/
def DoPostHelmInstall (faults : Faults) (install : Install) (kube : Cluster)
    (releaseName : String) : Cluster × Outcome :=
  match install.Encryption with
  | none => (kube, .panic)
  | some encryption =>
    if encryption.TlsEnabled then
      match updateMutatingWebhookAdapter faults kube releaseName with
      | (kube1, .nil) => (kube1, .nil)
      | (kube1, err) => (kube1, err.wrap "Error setting up webhook")
    else (kube, .nil)

end Consul

/-! ## Istio installer -/

namespace Istio

/-- A non-nil `*security.Clientset`. -/
inductive SecurityClientset where
  | client
deriving DecidableEq, Repr

/-- `IstioInstaller`: the security client may be nil; the API-extensions client is the
cluster the operations are run against. -/
structure IstioInstaller where
  securityClient : Option SecurityClientset
  crds : List CustomResourceDefinition
deriving DecidableEq, Repr

/-- Modelled from the spec: `shared.CreateCrds` (package `pkg/install/shared`), which is
not among the sources.  Each definition is created in turn; success and an
"already exists" error continue with the next one; any other error stops the loop and
is returned wrapped with the name of the definition. -/
def CreateCrds (faults : Faults) (kube : Cluster) :
    List CustomResourceDefinition → Cluster × Outcome
  | [] => (kube, .nil)
  | crd :: rest =>
    match createCrd (faults 0) kube crd with
    | (kube1, .ok _) => CreateCrds faults.next kube1 rest
    | (kube1, .error err) =>
      if IsAlreadyExists err then CreateCrds faults.next kube1 rest
      else (kube1, .err (.wrap err ("failed to create crd " ++ crd.Name)))

/-- `IstioInstaller.AddSccToUsers`: read-modify-write of the policy object "anyuid".
The receiver's security client is dereferenced, which panics when it is nil. -/
def AddSccToUsers (c : IstioInstaller) (faults : Faults) (kube : Cluster)
    (users : List String) : Cluster × Outcome :=
  match c.securityClient with
  | none => (kube, .panic)
  | some _ =>
    match getScc (faults 0) kube "anyuid" with
    | (kube1, .error err) => (kube1, .err err)
    | (kube1, .ok anyuid) =>
      let newUsers := anyuid.Users ++ users
      let anyuid := { anyuid with Users := newUsers }
      match updateScc (faults 1) kube1 anyuid with
      | (kube2, .error err) => (kube2, .err err)
      | (kube2, .ok _) => (kube2, .nil)

/-- The service accounts `DoPreHelmInstall` passes to `AddSccToUsers`. -/
def sccUsers : List String :=
  ["default",
   "istio-ingress-service-account",
   "prometheus",
   "istio-egressgateway-service-account",
   "istio-citadel-service-account",
   "istio-ingressgateway-service-account",
   "istio-cleanup-old-ca-service-account",
   "istio-mixer-post-install-account",
   "istio-mixer-service-account",
   "istio-pilot-service-account",
   "istio-sidecar-injector-service-account",
   "istio-galley-service-account"]

/-- `IstioInstaller.DoPreHelmInstall`: `apiFaults` is the failure schedule of the
API-extensions client, `sccFaults` the one of the security client. -/
def DoPreHelmInstall (c : IstioInstaller) (apiFaults sccFaults : Faults) (kube : Cluster) :
    Cluster × Outcome :=
  match CreateCrds apiFaults kube c.crds with
  | (kube1, .nil) =>
    match c.securityClient with
    | none => (kube1, .nil)
    | some _ => AddSccToUsers c sccFaults kube1 sccUsers
  | (kube1, err) => (kube1, err.wrap "creating istio crds")

/-- `IstioInstaller.DoPostHelmInstall`. -/
def DoPostHelmInstall (_c : IstioInstaller) (_install : Install) (kube : Cluster)
    (_releaseName : String) : Cluster × Outcome :=
  (kube, .nil)

end Istio

/-- The cluster after a definition has been registered. -/
def Cluster.withCrd (kube : Cluster) (d : CustomResourceDefinition) : Cluster :=
  { webhooks := kube.webhooks,
    crds := kube.crds ++ [d],
    sccs := kube.sccs,
    requests := kube.requests ++ [.createCrd d.Name] }

/-! ## Sample clusters and installers -/

/-- A cluster as the consul chart leaves it with release name "relA", next to an
unrelated webhook configuration. -/
def clusterAfterChart : Cluster :=
  { webhooks :=
      [⟨"relA-consul-connect-injector-cfg", "41", [("app", "consul")],
        [⟨"consul-connect-injector.consul.hashicorp.com", "Q0E=", ["CREATE pods"]⟩]⟩,
       ⟨"other-cfg", "7", [], []⟩],
    crds := [],
    sccs := [],
    requests := [] }

/-- A cluster with a webhook configuration named "relA-connect-injector-cfg" and none
named "connect-injector-cfg". -/
def scenario4Cluster : Cluster :=
  { webhooks :=
      [⟨"relA-connect-injector-cfg", "41", [],
        [⟨"connect-injector.consul.hashicorp.com", "Q0E=", ["CREATE pods"]⟩]⟩],
    crds := [],
    sccs := [],
    requests := [] }

/-- A cluster holding the policy object "anyuid" with two users, and another policy
object. -/
def clusterWithAnyuid : Cluster :=
  { webhooks := [],
    crds := [],
    sccs := [⟨"restricted", "3", false, [], ["system:serviceaccount:kube-system:tiller"]⟩,
             ⟨"anyuid", "12", false, ["system:cluster-admins"], ["admin", "default"]⟩],
    requests := [] }

/-- An istio installer without security client, with two definitions to register. -/
def installerWithoutScc : Istio.IstioInstaller :=
  { securityClient := none,
    crds := [⟨"virtualservices.networking.istio.io", "schema of virtual services"⟩,
             ⟨"gateways.networking.istio.io", "schema of gateways"⟩] }

/-- A cluster in which one of the two definitions is registered already. -/
def clusterWithGateways : Cluster :=
  { webhooks := [],
    crds := [⟨"gateways.networking.istio.io", "schema of gateways"⟩],
    sccs := [],
    requests := [] }

/-! ## Strings: what `Contains` decides -/

theorem startsWith_iff (p l : List Char) : startsWith p l = true ↔ ∃ t, l = p ++ t := by
  unfold startsWith
  constructor
  · intro h
    simp only [Bool.and_eq_true, decide_eq_true_eq, beq_iff_eq] at h
    refine ⟨l.drop p.length, ?_⟩
    calc l = l.take p.length ++ l.drop p.length := (List.take_append_drop p.length l).symm
      _ = p ++ l.drop p.length := by rw [h.2]
  · rintro ⟨t, rfl⟩
    simp

theorem hasSub_iff (sub l : List Char) : hasSub sub l = true ↔ ∃ a b, l = a ++ sub ++ b := by
  induction l with
  | nil =>
    simp only [hasSub, List.isEmpty_eq_true]
    constructor
    · rintro rfl
      exact ⟨[], [], rfl⟩
    · rintro ⟨a, b, h⟩
      have h2 := congrArg List.length h
      simp only [List.length_nil, List.length_append] at h2
      exact List.length_eq_zero.mp (by omega)
  | cons c cs ih =>
    simp only [hasSub, Bool.or_eq_true, startsWith_iff, ih]
    constructor
    · rintro (⟨t, h⟩ | ⟨a, b, h⟩)
      · exact ⟨[], t, by simpa using h⟩
      · exact ⟨c :: a, b, by simp [h]⟩
    · rintro ⟨a, b, h⟩
      cases a with
      | nil => exact Or.inl ⟨b, by simpa using h⟩
      | cons x a =>
        simp only [List.cons_append, List.cons.injEq] at h
        exact Or.inr ⟨a, b, h.2⟩

theorem Contains_iff (s sub : String) : Contains s sub = true ↔ ∃ a b : String, s = a ++ sub ++ b := by
  unfold Contains
  rw [hasSub_iff]
  constructor
  · rintro ⟨a, b, h⟩
    exact ⟨⟨a⟩, ⟨b⟩, String.ext (by simpa using h)⟩
  · rintro ⟨a, b, h⟩
    exact ⟨a.data, b.data, by rw [h]; simp⟩

/-! ## Override templater -/

theorem Consul.getOverrides_some (b : Bool) (s : Option ResourceRef) :
    Consul.getOverrides (some ⟨b, s⟩) =
      ReplaceAll Consul.overridesYaml "@@MTLS_ENABLED@@" (FormatBool b) := rfl

theorem Istio.getOverrides_secret (b : Bool) (r : ResourceRef) :
    Istio.getOverrides (some ⟨b, some r⟩) =
      ReplaceAll (ReplaceAll Istio.overridesYaml "@@MTLS_ENABLED@@" (FormatBool b))
        "@@SELF_SIGNED@@" (FormatBool (!b)) := by
  cases b <;> rfl

theorem Istio.getOverrides_no_secret (b : Bool) :
    Istio.getOverrides (some ⟨b, none⟩) =
      ReplaceAll (ReplaceAll Istio.overridesYaml "@@MTLS_ENABLED@@" (FormatBool b))
        "@@SELF_SIGNED@@" "true" := by
  cases b <;> rfl

set_option maxRecDepth 100000 in
/-- C2: for the consul and the istio installer and every present encryption
configuration, the overrides returned by `getOverrides` and by `GetOverridesYaml` do not
contain "@@": they cannot be split as `a ++ "@@" ++ b`. -/
theorem overrides_no_residual_tokens (e : Encryption) :
    (¬ ∃ a b : String, Consul.getOverrides (some e) = a ++ "@@" ++ b) ∧
    (¬ ∃ a b : String, Istio.getOverrides (some e) = a ++ "@@" ++ b) ∧
    (¬ ∃ a b : String, Consul.GetOverridesYaml ⟨some e⟩ = a ++ "@@" ++ b) ∧
    (¬ ∃ a b : String, Istio.GetOverridesYaml ⟨some e⟩ = a ++ "@@" ++ b) := by
  have hc : Contains (Consul.getOverrides (some e)) "@@" = false := by
    obtain ⟨b, s⟩ := e
    rw [Consul.getOverrides_some]
    cases b <;> decide
  have hi : Contains (Istio.getOverrides (some e)) "@@" = false := by
    obtain ⟨b, s⟩ := e
    cases s with
    | none => rw [Istio.getOverrides_no_secret]; cases b <;> decide
    | some r => rw [Istio.getOverrides_secret]; cases b <;> decide
  have kc : ¬ ∃ a b : String, Consul.getOverrides (some e) = a ++ "@@" ++ b := by
    rw [← Contains_iff, hc]; simp
  have ki : ¬ ∃ a b : String, Istio.getOverrides (some e) = a ++ "@@" ++ b := by
    rw [← Contains_iff, hi]; simp
  exact ⟨kc, ki, kc, ki⟩

set_option maxRecDepth 100000 in
/-- C3: for every present encryption configuration, istio's `getOverrides` returns the
istio template with "@@MTLS_ENABLED@@" replaced by "true" or "false" after `TlsEnabled`,
and "@@SELF_SIGNED@@" replaced, when `TlsEnabled` holds, by "true" without a secret and
by "false" with one (and by "true" when `TlsEnabled` does not hold).  With
`TlsEnabled` and no secret the output reads "enabled: true", "selfSigned: true"; with a
secret, "enabled: true", "selfSigned: false". -/
theorem istio_token_resolution (e : Encryption) :
    Istio.getOverrides (some e) =
      Istio.templateWith (if e.TlsEnabled then "true" else "false")
        (if e.TlsEnabled then (if e.Secret.isSome then "false" else "true") else "true") ∧
    Istio.overridesYaml = Istio.templateWith "@@MTLS_ENABLED@@" "@@SELF_SIGNED@@" ∧
    Contains (Istio.templateWith "" "") "@@" = false ∧
    Istio.getOverrides (some ⟨true, none⟩) =
      "#overrides\nglobal:\n  mtls:\n    enabled: true\n  crds: false\nsecurity:\n  selfSigned: true\n" ∧
    (∀ r : ResourceRef, Istio.getOverrides (some ⟨true, some r⟩) =
      "#overrides\nglobal:\n  mtls:\n    enabled: true\n  crds: false\nsecurity:\n  selfSigned: false\n") := by
  refine ⟨?_, by decide, by decide, by decide, ?_⟩
  · obtain ⟨b, s⟩ := e
    cases s with
    | none => rw [Istio.getOverrides_no_secret]; cases b <;> dsimp only [Option.isSome] <;> decide
    | some r => rw [Istio.getOverrides_secret]; cases b <;> dsimp only [Option.isSome] <;> decide
  · intro r
    rw [Istio.getOverrides_secret]
    decide

set_option maxRecDepth 100000 in
/-- C4: for every present encryption configuration, with or without a secret, consul's
`getOverrides` returns the consul template with both occurrences of "@@MTLS_ENABLED@@"
(under `server.connect` and under `connectInject.enabled`) replaced by the boolean
string of `TlsEnabled` and nothing else changed; with `TlsEnabled = false` the output
contains "connect: false" and, for `connectInject`, "enabled: false". -/
theorem consul_token_resolution (e : Encryption) :
    Consul.getOverrides (some e) = Consul.templateWith (FormatBool e.TlsEnabled) ∧
    Consul.overridesYaml = Consul.templateWith "@@MTLS_ENABLED@@" ∧
    Contains (Consul.templateWith "") "@@" = false ∧
    (∀ s : Option ResourceRef,
      Contains (Consul.getOverrides (some ⟨false, s⟩)) "\n  connect: false\n" = true ∧
      Contains (Consul.getOverrides (some ⟨false, s⟩)) "\nconnectInject:\n  enabled: false\n" = true) := by
  refine ⟨?_, by decide, by decide, ?_⟩
  · obtain ⟨b, s⟩ := e
    rw [Consul.getOverrides_some]
    cases b <;> dsimp only <;> decide
  · intro s
    rw [Consul.getOverrides_some]
    exact ⟨by decide, by decide⟩

/-- C5, as stated, fails for istio: without an encryption configuration
`getOverrides` and `GetOverridesYaml` do not return the unmodified istio template. -/
theorem istio_absent_encryption_not_template :
    Istio.getOverrides none ≠ Istio.overridesYaml ∧
    Istio.GetOverridesYaml ⟨none⟩ ≠ Istio.overridesYaml := by
  decide

set_option maxRecDepth 100000 in
/-- C5, amended: without an encryption configuration consul's `getOverrides` and
`GetOverridesYaml` return the unmodified consul template, character for character;
istio's return the istio template with "@@MTLS_ENABLED@@" resolved to "false" and
"@@SELF_SIGNED@@" resolved to "true". -/
theorem absent_encryption_overrides :
    Consul.getOverrides none = Consul.overridesYaml ∧
    Consul.GetOverridesYaml ⟨none⟩ = Consul.overridesYaml ∧
    Istio.getOverrides none = Istio.templateWith "false" "true" ∧
    Istio.GetOverridesYaml ⟨none⟩ = Istio.templateWith "false" "true" ∧
    Istio.overridesYaml = Istio.templateWith "@@MTLS_ENABLED@@" "@@SELF_SIGNED@@" := by
  refine ⟨rfl, rfl, by decide, by decide, by decide⟩

/-! ## Webhook repair -/

theorem Consul.releaseQualifiedName_eq (r : String) :
    Consul.releaseQualifiedName r = r ++ "-consul-connect-injector-cfg" := by
  unfold Consul.releaseQualifiedName
  rw [String.append_assoc]
  rfl

theorem Consul.releaseQualifiedName_ne (r : String) :
    Consul.releaseQualifiedName r ≠ Consul.WebhookCfg := by
  intro h
  have h2 := congrArg String.length h
  rw [Consul.releaseQualifiedName_eq, String.length_append] at h2
  have h3 : ("-consul-connect-injector-cfg" : String).length = 28 := by decide
  have h4 : Consul.WebhookCfg.length = 27 := by decide
  omega

theorem Cluster.webhook_log (kube : Cluster) (q : Request) (n : String) :
    (kube.log q).webhook n = kube.webhook n := rfl

theorem Cluster.webhook_mk (w : List MutatingWebhookConfiguration)
    (c : List CustomResourceDefinition) (s : List SecurityContextConstraints)
    (q : List Request) (n : String) :
    (Cluster.mk w c s q).webhook n = w.find? (fun x => x.Name == n) := rfl

/-- What a successful run of the repair has done: the release-qualified configuration
was stored, no canonical one was, and the stores are as after one create and one
delete. -/
theorem Consul.repair_success (faults : Faults) (kube : Cluster) (r : String)
    (h : (Consul.updateMutatingWebhookAdapter faults kube r).2 = .nil) :
    ∃ cfg, kube.webhook (Consul.releaseQualifiedName r) = some cfg ∧
      kube.webhook Consul.WebhookCfg = none ∧
      (Consul.updateMutatingWebhookAdapter faults kube r).1 =
        { webhooks := (kube.webhooks ++ [Consul.getFixedWebhookAdapter cfg]).filter
            (fun c => !(c.Name == Consul.releaseQualifiedName r)),
          crds := kube.crds,
          sccs := kube.sccs,
          requests := kube.requests ++ [.getWebhook (Consul.releaseQualifiedName r),
            .createWebhook Consul.WebhookCfg, .deleteWebhook (Consul.releaseQualifiedName r)] } := by
  unfold Consul.updateMutatingWebhookAdapter at h ⊢
  cases hf0 : faults 0 with
  | some m => simp [getWebhook, hf0] at h
  | none =>
    cases hw : kube.webhook (Consul.releaseQualifiedName r) with
    | none => simp [getWebhook, hf0, hw] at h
    | some cfg =>
      refine ⟨cfg, rfl, ?_⟩
      simp only [getWebhook, hf0, hw] at h ⊢
      cases hf1 : faults 1 with
      | some m => simp [createWebhook, hf1] at h
      | none =>
        cases hc : kube.webhook Consul.WebhookCfg with
        | some c =>
          simp [createWebhook, hf1, Consul.getFixedWebhookAdapter, Cluster.webhook_log, hc] at h
        | none =>
          refine ⟨rfl, ?_⟩
          have hw2 : kube.webhooks.find? (fun x => x.Name == Consul.releaseQualifiedName r) =
              some cfg := hw
          have hc2 : kube.webhooks.find? (fun x => x.Name == Consul.WebhookCfg) = none := hc
          cases hf2 : faults 2 with
          | some m =>
            simp [createWebhook, deleteWebhook, hf1, hf2, Consul.getFixedWebhookAdapter,
              Cluster.webhook_log, hc] at h
          | none =>
            simp [createWebhook, deleteWebhook, hf1, hf2, Consul.getFixedWebhookAdapter,
              Cluster.webhook, Cluster.log, hw2, hc2]

/-- With no failure injected, a stored release-qualified configuration and no canonical
one, the repair succeeds. -/
theorem Consul.repair_ok (faults : Faults) (kube : Cluster) (r : String)
    (cfg : MutatingWebhookConfiguration)
    (hf0 : faults 0 = none) (hf1 : faults 1 = none) (hf2 : faults 2 = none)
    (hw : kube.webhook (Consul.releaseQualifiedName r) = some cfg)
    (hc : kube.webhook Consul.WebhookCfg = none) :
    (Consul.updateMutatingWebhookAdapter faults kube r).2 = .nil := by
  have hw2 : kube.webhooks.find? (fun x => x.Name == Consul.releaseQualifiedName r) =
      some cfg := hw
  have hc2 : kube.webhooks.find? (fun x => x.Name == Consul.WebhookCfg) = none := hc
  simp [Consul.updateMutatingWebhookAdapter, getWebhook, createWebhook, deleteWebhook, hf0, hf1,
    hf2, Consul.getFixedWebhookAdapter, Cluster.webhook, Cluster.log, hw2, hc2]

/-- Without a release-qualified configuration, or with a canonical one, the repair ends
in an error and no store is changed. -/
theorem Consul.repair_fail (faults : Faults) (kube : Cluster) (r : String)
    (hpre : kube.webhook (Consul.releaseQualifiedName r) = none ∨
      (kube.webhook Consul.WebhookCfg).isSome = true) :
    ∃ e, (Consul.updateMutatingWebhookAdapter faults kube r).2 = .err e ∧
      (Consul.updateMutatingWebhookAdapter faults kube r).1.webhooks = kube.webhooks ∧
      (Consul.updateMutatingWebhookAdapter faults kube r).1.crds = kube.crds ∧
      (Consul.updateMutatingWebhookAdapter faults kube r).1.sccs = kube.sccs := by
  unfold Consul.updateMutatingWebhookAdapter
  cases hf0 : faults 0 with
  | some m => exact ⟨.other m, by simp [getWebhook, hf0, Cluster.log]⟩
  | none =>
    cases hw : kube.webhook (Consul.releaseQualifiedName r) with
    | none =>
      exact ⟨.notFound (Consul.releaseQualifiedName r), by simp [getWebhook, hf0, hw, Cluster.log]⟩
    | some cfg =>
      simp only [getWebhook, hf0, hw]
      cases hf1 : faults 1 with
      | some m => exact ⟨.other m, by simp [createWebhook, hf1, Cluster.log]⟩
      | none =>
        cases hc : kube.webhook Consul.WebhookCfg with
        | some c =>
          have hc2 : kube.webhooks.find? (fun x => x.Name == Consul.WebhookCfg) = some c := hc
          exact ⟨.alreadyExists Consul.WebhookCfg, by
            simp [createWebhook, hf1, Consul.getFixedWebhookAdapter, Cluster.webhook,
              Cluster.log, hc2]⟩
        | none => simp [hw, hc] at hpre

theorem find_filter_name_ne (l : List MutatingWebhookConfiguration) (n m : String)
    (h : n ≠ m) :
    (l.filter (fun c => !(c.Name == m))).find? (fun c => c.Name == n) =
      l.find? (fun c => c.Name == n) := by
  induction l with
  | nil => rfl
  | cons x xs ih =>
    by_cases hx : x.Name = m
    · have hn : ¬ m = n := fun h2 => h h2.symm
      simp [List.filter_cons, List.find?_cons, hx, hn, ih]
    · by_cases hn : x.Name = n
      · simp [List.filter_cons, List.find?_cons, hn, h]
      · simp [List.filter_cons, List.find?_cons, hx, hn, ih]

theorem find_filter_name_self (l : List MutatingWebhookConfiguration) (m : String) :
    (l.filter (fun c => !(c.Name == m))).find? (fun c => c.Name == m) = none := by
  simp [List.find?_eq_none, List.mem_filter]

theorem countP_filter_name_self (l : List MutatingWebhookConfiguration) (m : String) :
    (l.filter (fun c => !(c.Name == m))).countP (fun c => c.Name == m) = 0 := by
  simp [List.countP_eq_zero, List.mem_filter]

theorem countP_filter_name_ne (l : List MutatingWebhookConfiguration) (n m : String)
    (h : n ≠ m) :
    (l.filter (fun c => !(c.Name == m))).countP (fun c => c.Name == n) =
      l.countP (fun c => c.Name == n) := by
  induction l with
  | nil => rfl
  | cons x xs ih =>
    by_cases hx : x.Name = m
    · have hn : ¬ m = n := fun h2 => h h2.symm
      simp [List.filter_cons, List.countP_cons, hx, hn, ih]
    · by_cases hn : x.Name = n
      · simp [List.filter_cons, List.countP_cons, hn, h, ih]
      · simp [List.filter_cons, List.countP_cons, hx, hn, ih]

theorem countP_name_of_find_none (l : List MutatingWebhookConfiguration) (n : String)
    (h : l.find? (fun c => c.Name == n) = none) :
    l.countP (fun c => c.Name == n) = 0 := by
  rw [List.countP_eq_zero]
  exact List.find?_eq_none.mp h

/-- The state after a successful repair, in terms of lookups and counts. -/
theorem Consul.repair_post (faults : Faults) (kube : Cluster) (r : String)
    (h : (Consul.updateMutatingWebhookAdapter faults kube r).2 = .nil) :
    ∃ orig fixed,
      kube.webhook (r ++ "-consul-connect-injector-cfg") = some orig ∧
      (Consul.updateMutatingWebhookAdapter faults kube r).1.webhook
        "consul-connect-injector-cfg" = some fixed ∧
      fixed = { orig with Name := "consul-connect-injector-cfg", ResourceVersion := "" } ∧
      fixed.Webhooks = orig.Webhooks ∧
      (Consul.updateMutatingWebhookAdapter faults kube r).1.webhooks.countP
        (fun c => c.Name == "consul-connect-injector-cfg") = 1 ∧
      (Consul.updateMutatingWebhookAdapter faults kube r).1.webhook
        (r ++ "-consul-connect-injector-cfg") = none ∧
      (Consul.updateMutatingWebhookAdapter faults kube r).1.webhooks.countP
        (fun c => c.Name == r ++ "-consul-connect-injector-cfg") = 0 ∧
      (∀ n : String, n ≠ "consul-connect-injector-cfg" →
        n ≠ r ++ "-consul-connect-injector-cfg" →
        (Consul.updateMutatingWebhookAdapter faults kube r).1.webhook n = kube.webhook n) ∧
      (Consul.updateMutatingWebhookAdapter faults kube r).1.crds = kube.crds ∧
      (Consul.updateMutatingWebhookAdapter faults kube r).1.sccs = kube.sccs := by
  obtain ⟨cfg, hw, hc, hrun⟩ := Consul.repair_success faults kube r h
  have hne := Consul.releaseQualifiedName_ne r
  rw [Consul.releaseQualifiedName_eq] at hw hne hrun
  rw [hrun]
  have hcan : Consul.WebhookCfg = "consul-connect-injector-cfg" := rfl
  rw [hcan] at hc hne
  have hc2 : kube.webhooks.find? (fun x => x.Name == "consul-connect-injector-cfg") = none := hc
  refine ⟨cfg, Consul.getFixedWebhookAdapter cfg, hw, ?_, rfl, rfl, ?_, ?_, ?_, ?_, rfl, rfl⟩
  · rw [Cluster.webhook_mk, find_filter_name_ne _ _ _ (Ne.symm hne), List.find?_append, hc2]
    simp [Consul.getFixedWebhookAdapter, hcan]
  · rw [countP_filter_name_ne _ _ _ (Ne.symm hne), List.countP_append,
      countP_name_of_find_none _ _ hc2]
    simp [Consul.getFixedWebhookAdapter, hcan]
  · rw [Cluster.webhook_mk, find_filter_name_self]
  · exact countP_filter_name_self _ _
  · intro n hn1 hn2
    rw [Cluster.webhook_mk, find_filter_name_ne _ _ _ hn2, List.find?_append]
    have : ¬ (Consul.getFixedWebhookAdapter cfg).Name = n := fun h2 => hn1 h2.symm
    simp [List.find?_cons, this, Cluster.webhook]

/-- C1: whenever `updateMutatingWebhookAdapter` returns no error, whatever the cluster, the
release name and the injected failures: a configuration was stored under
`r ++ "-consul-connect-injector-cfg"` before the call; afterwards exactly one
configuration is stored under "consul-connect-injector-cfg", it is the original with
the name replaced and the resource version cleared, so its webhooks (rules, CA bundles)
and labels are those of the original; none is stored under the release-qualified name;
the configuration found under any other name is the one found before; and the other
stores are untouched. -/
theorem webhook_repair_postcondition (faults : Faults) (kube : Cluster) (r : String)
    (h : (Consul.updateMutatingWebhookAdapter faults kube r).2 = .nil) :
    ∃ orig fixed,
      kube.webhook (r ++ "-consul-connect-injector-cfg") = some orig ∧
      (Consul.updateMutatingWebhookAdapter faults kube r).1.webhook
        "consul-connect-injector-cfg" = some fixed ∧
      fixed = { orig with Name := "consul-connect-injector-cfg", ResourceVersion := "" } ∧
      fixed.Webhooks = orig.Webhooks ∧
      (Consul.updateMutatingWebhookAdapter faults kube r).1.webhooks.countP
        (fun c => c.Name == "consul-connect-injector-cfg") = 1 ∧
      (Consul.updateMutatingWebhookAdapter faults kube r).1.webhook
        (r ++ "-consul-connect-injector-cfg") = none ∧
      (Consul.updateMutatingWebhookAdapter faults kube r).1.webhooks.countP
        (fun c => c.Name == r ++ "-consul-connect-injector-cfg") = 0 ∧
      (∀ n : String, n ≠ "consul-connect-injector-cfg" →
        n ≠ r ++ "-consul-connect-injector-cfg" →
        (Consul.updateMutatingWebhookAdapter faults kube r).1.webhook n = kube.webhook n) ∧
      (Consul.updateMutatingWebhookAdapter faults kube r).1.crds = kube.crds ∧
      (Consul.updateMutatingWebhookAdapter faults kube r).1.sccs = kube.sccs := by
  exact Consul.repair_post faults kube r h

/-- Witness of C1: on `clusterAfterChart` the repair for "relA" succeeds, and then one
canonical configuration and no release-qualified one is stored. -/
theorem webhook_repair_postcondition_witness :
    (Consul.updateMutatingWebhookAdapter noFaults clusterAfterChart "relA").2 = .nil ∧
    (Consul.updateMutatingWebhookAdapter noFaults clusterAfterChart "relA").1.webhooks.countP
        (fun c => c.Name == "consul-connect-injector-cfg") = 1 ∧
    (Consul.updateMutatingWebhookAdapter noFaults clusterAfterChart "relA").1.webhook
        ("relA" ++ "-consul-connect-injector-cfg") = none := by
  obtain ⟨_, _, _, _, _, _, h5, h6, _⟩ :=
    webhook_repair_postcondition noFaults clusterAfterChart "relA" (by decide)
  exact ⟨by decide, h5, h6⟩

/-- C7: if no configuration is stored under `r ++ "-consul-connect-injector-cfg"`, or one
is stored under "consul-connect-injector-cfg", then `updateMutatingWebhookAdapter`
returns an error and the stored webhook configurations (and the other stores) are the
ones before the call; and after a run that returned no error, a second run, whatever
failures are injected, returns an error and leaves the stores as the first run left
them. -/
theorem webhook_repair_failure_untouched (faults faults2 : Faults) (kube : Cluster)
    (r : String) :
    ((kube.webhook (r ++ "-consul-connect-injector-cfg") = none ∨
        (kube.webhook "consul-connect-injector-cfg").isSome = true) →
      ∃ e, (Consul.updateMutatingWebhookAdapter faults kube r).2 = .err e ∧
        (Consul.updateMutatingWebhookAdapter faults kube r).1.webhooks = kube.webhooks ∧
        (Consul.updateMutatingWebhookAdapter faults kube r).1.crds = kube.crds ∧
        (Consul.updateMutatingWebhookAdapter faults kube r).1.sccs = kube.sccs) ∧
    ((Consul.updateMutatingWebhookAdapter faults kube r).2 = .nil →
      ∃ e,
        (Consul.updateMutatingWebhookAdapter faults2
          (Consul.updateMutatingWebhookAdapter faults kube r).1 r).2 = .err e ∧
        (Consul.updateMutatingWebhookAdapter faults2
          (Consul.updateMutatingWebhookAdapter faults kube r).1 r).1.webhooks =
            (Consul.updateMutatingWebhookAdapter faults kube r).1.webhooks ∧
        (Consul.updateMutatingWebhookAdapter faults2
          (Consul.updateMutatingWebhookAdapter faults kube r).1 r).1.crds = kube.crds ∧
        (Consul.updateMutatingWebhookAdapter faults2
          (Consul.updateMutatingWebhookAdapter faults kube r).1 r).1.sccs = kube.sccs) := by
  constructor
  · intro hpre
    rw [← Consul.releaseQualifiedName_eq] at hpre
    exact Consul.repair_fail faults kube r hpre
  · intro h
    obtain ⟨_, _, _, _, _, _, _, h6, _, _, hcrds, hsccs⟩ := Consul.repair_post faults kube r h
    rw [← Consul.releaseQualifiedName_eq] at h6
    obtain ⟨e, h1, h2, h3, h4⟩ := Consul.repair_fail faults2 _ r (Or.inl h6)
    exact ⟨e, h1, h2, h3.trans hcrds, h4.trans hsccs⟩

/-- Witness of C7: on a cluster without any webhook configuration the repair fails and
stores nothing; on `clusterAfterChart` a second run after the successful first one
fails. -/
theorem webhook_repair_failure_untouched_witness :
    (Consul.updateMutatingWebhookAdapter noFaults ⟨[], [], [], []⟩ "relA").1.webhooks = [] ∧
    (Consul.updateMutatingWebhookAdapter noFaults
      (Consul.updateMutatingWebhookAdapter noFaults clusterAfterChart "relA").1 "relA").2 ≠
        .nil := by
  obtain ⟨_, _, h2, _⟩ :=
    (webhook_repair_failure_untouched noFaults noFaults ⟨[], [], [], []⟩ "relA").1
      (Or.inl (by decide))
  obtain ⟨e, h3, _⟩ :=
    (webhook_repair_failure_untouched noFaults noFaults clusterAfterChart "relA").2 (by decide)
  exact ⟨h2, by rw [h3]; exact fun h => Outcome.noConfusion h⟩

/-- C10, as stated, fails: with "relA-connect-injector-cfg" stored and no
"connect-injector-cfg", the repair for release "relA" looks up
"relA-consul-connect-injector-cfg", returns a not-found error, and afterwards
"connect-injector-cfg" is still absent and "relA-connect-injector-cfg" still stored. -/
theorem scenario4_as_stated_fails :
    (scenario4Cluster.webhook "relA-connect-injector-cfg").isSome = true ∧
    scenario4Cluster.webhook "connect-injector-cfg" = none ∧
    (Consul.updateMutatingWebhookAdapter noFaults scenario4Cluster "relA").2 =
      .err (.notFound "relA-consul-connect-injector-cfg") ∧
    (Consul.updateMutatingWebhookAdapter noFaults scenario4Cluster "relA").1.webhook
      "connect-injector-cfg" = none ∧
    ((Consul.updateMutatingWebhookAdapter noFaults scenario4Cluster "relA").1.webhook
      "relA-connect-injector-cfg").isSome = true := by
  decide

/-- C10, amended: the release-qualified name is `releaseName ++ "-" ++ WebhookCfg` with
the canonical name `WebhookCfg = "consul-connect-injector-cfg"`; for a cluster in which
"relA-consul-connect-injector-cfg" is stored and "consul-connect-injector-cfg" is not,
the repair with release name "relA" and no injected failure succeeds, and afterwards
"consul-connect-injector-cfg" is stored with the webhooks (rules) of the original while
"relA-consul-connect-injector-cfg" is absent. -/
theorem scenario4_repair (kube : Cluster) (cfg : MutatingWebhookConfiguration)
    (h1 : kube.webhook "relA-consul-connect-injector-cfg" = some cfg)
    (h2 : kube.webhook "consul-connect-injector-cfg" = none) :
    (Consul.updateMutatingWebhookAdapter noFaults kube "relA").2 = .nil ∧
    (∃ fixed, (Consul.updateMutatingWebhookAdapter noFaults kube "relA").1.webhook
        "consul-connect-injector-cfg" = some fixed ∧ fixed.Webhooks = cfg.Webhooks) ∧
    (Consul.updateMutatingWebhookAdapter noFaults kube "relA").1.webhook
        "relA-consul-connect-injector-cfg" = none ∧
    (∀ releaseName : String,
      Consul.releaseQualifiedName releaseName = releaseName ++ "-" ++ Consul.WebhookCfg) ∧
    Consul.WebhookCfg = "consul-connect-injector-cfg" := by
  have hq : Consul.releaseQualifiedName "relA" = "relA-consul-connect-injector-cfg" := by decide
  have hok : (Consul.updateMutatingWebhookAdapter noFaults kube "relA").2 = .nil :=
    Consul.repair_ok noFaults kube "relA" cfg rfl rfl rfl (by rw [hq]; exact h1) h2
  obtain ⟨orig, fixed, g1, g2, _, g4, _, g6, _⟩ := Consul.repair_post noFaults kube "relA" hok
  have hq2 : ("relA" ++ "-consul-connect-injector-cfg" : String) =
      "relA-consul-connect-injector-cfg" := by decide
  rw [hq2] at g1 g6
  have ho : orig = cfg := Option.some.inj (g1.symm.trans h1)
  exact ⟨hok, ⟨fixed, g2, by rw [g4, ho]⟩, g6, fun _ => rfl, rfl⟩

/-- Witness of C10 (amended): `clusterAfterChart` meets both hypotheses. -/
theorem scenario4_repair_witness :
    (Consul.updateMutatingWebhookAdapter noFaults clusterAfterChart "relA").2 = .nil ∧
    (Consul.updateMutatingWebhookAdapter noFaults clusterAfterChart "relA").1.webhook
        "relA-consul-connect-injector-cfg" = none := by
  obtain ⟨g1, _, g3, _⟩ :=
    scenario4_repair clusterAfterChart
      ⟨"relA-consul-connect-injector-cfg", "41", [("app", "consul")],
        [⟨"consul-connect-injector.consul.hashicorp.com", "Q0E=", ["CREATE pods"]⟩]⟩
      (by decide) (by decide)
  exact ⟨g1, g3⟩

/-! ## Security policy grant -/

theorem Cluster.scc_mk (w : List MutatingWebhookConfiguration)
    (c : List CustomResourceDefinition) (s : List SecurityContextConstraints)
    (q : List Request) (n : String) :
    (Cluster.mk w c s q).scc n = s.find? (fun x => x.Name == n) := rfl

theorem scc_find_map_self (l : List SecurityContextConstraints) (n : String)
    (old obj : SecurityContextConstraints) (hobj : obj.Name = n)
    (h : l.find? (fun x => x.Name == n) = some old) :
    (l.map (fun o => if o.Name == n then obj else o)).find? (fun x => x.Name == n) =
      some obj := by
  have e2 : (obj.Name == n) = true := by rw [hobj]; exact beq_self_eq_true n
  induction l with
  | nil => simp at h
  | cons x xs ih =>
    rw [List.map_cons, List.find?_cons]
    by_cases hx : x.Name = n
    · have e1 : (x.Name == n) = true := by rw [hx]; exact beq_self_eq_true n
      rw [if_pos e1, e2]
    · have e1 : (x.Name == n) = false := by simpa using hx
      rw [List.find?_cons, e1] at h
      rw [if_neg (by rw [e1]; exact Bool.false_ne_true), e1]
      exact ih h

theorem scc_find_map_ne (l : List SecurityContextConstraints) (n m : String)
    (obj : SecurityContextConstraints) (hobj : obj.Name = n) (hm : m ≠ n) :
    (l.map (fun o => if o.Name == n then obj else o)).find? (fun x => x.Name == m) =
      l.find? (fun x => x.Name == m) := by
  have e2 : (obj.Name == m) = false := by
    rw [hobj]; simpa using fun h2 : n = m => hm h2.symm
  induction l with
  | nil => rfl
  | cons x xs ih =>
    rw [List.map_cons, List.find?_cons, List.find?_cons]
    by_cases hx : x.Name = n
    · have e1 : (x.Name == n) = true := by rw [hx]; exact beq_self_eq_true n
      have e3 : (x.Name == m) = false := by
        rw [hx]; simpa using fun h2 : n = m => hm h2.symm
      rw [if_pos e1, e2, e3]
      exact ih
    · have e1 : (x.Name == n) = false := by simpa using hx
      rw [if_neg (by rw [e1]; exact Bool.false_ne_true)]
      cases hxm : (x.Name == m) with
      | true => rfl
      | false => exact ih

/-- What a successful grant has done. -/
theorem Istio.grant_success (c : Istio.IstioInstaller) (faults : Faults) (kube : Cluster)
    (users : List String) (h : (Istio.AddSccToUsers c faults kube users).2 = .nil) :
    ∃ anyuid, kube.scc "anyuid" = some anyuid ∧
      (Istio.AddSccToUsers c faults kube users).1 =
        { webhooks := kube.webhooks,
          crds := kube.crds,
          sccs := kube.sccs.map (fun o =>
            if o.Name == "anyuid" then { anyuid with Users := anyuid.Users ++ users } else o),
          requests := kube.requests ++ [.getScc "anyuid", .updateScc "anyuid"] } := by
  unfold Istio.AddSccToUsers at h ⊢
  cases hs : c.securityClient with
  | none => simp [hs] at h
  | some cl =>
    simp only [hs] at h ⊢
    cases hf0 : faults 0 with
    | some m => simp [getScc, hf0] at h
    | none =>
      cases hw : kube.scc "anyuid" with
      | none => simp [getScc, hf0, hw] at h
      | some anyuid =>
        have hname : anyuid.Name = "anyuid" := by
          have := List.find?_some hw
          simpa using this
        have hw2 : kube.sccs.find? (fun x => x.Name == "anyuid") = some anyuid := hw
        refine ⟨anyuid, rfl, ?_⟩
        cases hf1 : faults 1 with
        | some m => simp [getScc, updateScc, hf0, hw, hf1] at h
        | none =>
          simp [getScc, updateScc, hf0, hw, hf1, Cluster.scc, Cluster.log, hw2, hname]

/-- C6: the grant appends.  If `AddSccToUsers` returns no error, the object "anyuid" was
stored, and afterwards the object stored under "anyuid" is that object with the user
list `U ++ S` (prior users in their order, then the arguments in theirs, nothing
removed or deduplicated) and every other field as before; the other policy objects and
the other stores are as before, and one get and one update were issued.  If the client
is there and the fetch fails (injected failure, or no object "anyuid"), the call
returns an error, only the get was issued, and no store is changed. -/
theorem security_grant_append_only (c : Istio.IstioInstaller) (faults : Faults)
    (kube : Cluster) (users : List String) :
    ((Istio.AddSccToUsers c faults kube users).2 = .nil →
      ∃ anyuid, kube.scc "anyuid" = some anyuid ∧
        (Istio.AddSccToUsers c faults kube users).1.scc "anyuid" =
          some { anyuid with Users := anyuid.Users ++ users } ∧
        (∀ n : String, n ≠ "anyuid" →
          (Istio.AddSccToUsers c faults kube users).1.scc n = kube.scc n) ∧
        (Istio.AddSccToUsers c faults kube users).1.sccs.length = kube.sccs.length ∧
        (Istio.AddSccToUsers c faults kube users).1.webhooks = kube.webhooks ∧
        (Istio.AddSccToUsers c faults kube users).1.crds = kube.crds ∧
        (Istio.AddSccToUsers c faults kube users).1.requests =
          kube.requests ++ [.getScc "anyuid", .updateScc "anyuid"]) ∧
    (c.securityClient = some .client → ((faults 0).isSome = true ∨ kube.scc "anyuid" = none) →
      ∃ e, (Istio.AddSccToUsers c faults kube users).2 = .err e ∧
        (Istio.AddSccToUsers c faults kube users).1.sccs = kube.sccs ∧
        (Istio.AddSccToUsers c faults kube users).1.webhooks = kube.webhooks ∧
        (Istio.AddSccToUsers c faults kube users).1.crds = kube.crds ∧
        (Istio.AddSccToUsers c faults kube users).1.requests =
          kube.requests ++ [.getScc "anyuid"]) := by
  constructor
  · intro h
    obtain ⟨anyuid, hw, hrun⟩ := Istio.grant_success c faults kube users h
    have hname : anyuid.Name = "anyuid" := by
      have := List.find?_some hw
      simpa using this
    rw [hrun]
    refine ⟨anyuid, hw, ?_, ?_, ?_, rfl, rfl, rfl⟩
    · rw [Cluster.scc_mk]
      exact scc_find_map_self _ _ anyuid _ hname hw
    · intro n hn
      rw [Cluster.scc_mk]
      exact scc_find_map_ne _ _ _ _ hname hn
    · simp
  · intro hs hfetch
    unfold Istio.AddSccToUsers
    simp only [hs]
    cases hf0 : faults 0 with
    | some m => exact ⟨.other m, by simp [getScc, Cluster.log]⟩
    | none =>
      rcases hfetch with hf | hw
      · simp [hf0] at hf
      · exact ⟨.notFound "anyuid", by simp [getScc, hw, Cluster.log]⟩

/-- Witness of C6: granting two users on `clusterWithAnyuid` succeeds and stores the
four users; with the first request failing, only the get is issued. -/
theorem security_grant_append_only_witness :
    (Istio.AddSccToUsers ⟨some .client, []⟩ noFaults clusterWithAnyuid
      ["prometheus", "default"]).1.scc "anyuid" =
      some ⟨"anyuid", "12", false, ["system:cluster-admins"],
        ["admin", "default", "prometheus", "default"]⟩ ∧
    (Istio.AddSccToUsers ⟨some .client, []⟩ (fun _ => some "connection refused")
      clusterWithAnyuid ["prometheus", "default"]).1.requests = [.getScc "anyuid"] := by
  obtain ⟨anyuid, h1, h2, _⟩ :=
    (security_grant_append_only ⟨some .client, []⟩ noFaults clusterWithAnyuid
      ["prometheus", "default"]).1 (by decide)
  obtain ⟨_, _, _, _, _, h3⟩ :=
    (security_grant_append_only ⟨some .client, []⟩ (fun _ => some "connection refused")
      clusterWithAnyuid ["prometheus", "default"]).2 rfl (Or.inl rfl)
  have ha : anyuid = ⟨"anyuid", "12", false, ["system:cluster-admins"], ["admin", "default"]⟩ :=
    Option.some.inj (h1.symm.trans (by decide))
  subst ha
  exact ⟨h2, h3⟩

/-! ## CRD bootstrap -/

theorem Cluster.crd_mk (w : List MutatingWebhookConfiguration)
    (c : List CustomResourceDefinition) (s : List SecurityContextConstraints)
    (q : List Request) (n : String) :
    (Cluster.mk w c s q).crd n = c.find? (fun x => x.Name == n) := rfl

theorem Cluster.crd_log (kube : Cluster) (q : Request) (n : String) :
    (kube.log q).crd n = kube.crd n := rfl

theorem Istio.CreateCrds_cons_fault (f : Faults) (k : Cluster) (d : CustomResourceDefinition)
    (ds : List CustomResourceDefinition) (m : String) (hf : f 0 = some m) :
    Istio.CreateCrds f k (d :: ds) =
      (k.log (.createCrd d.Name),
        .err (.wrap (.other m) ("failed to create crd " ++ d.Name))) := by
  simp [Istio.CreateCrds, createCrd, hf, IsAlreadyExists]

theorem Istio.CreateCrds_cons_exists (f : Faults) (k : Cluster) (d : CustomResourceDefinition)
    (ds : List CustomResourceDefinition) (hf : f 0 = none)
    (hd : (k.crd d.Name).isSome = true) :
    Istio.CreateCrds f k (d :: ds) = Istio.CreateCrds f.next (k.log (.createCrd d.Name)) ds := by
  obtain ⟨x, hx⟩ := Option.isSome_iff_exists.mp hd
  simp [Istio.CreateCrds, createCrd, hf, hx, IsAlreadyExists]

theorem Istio.CreateCrds_cons_new (f : Faults) (k : Cluster) (d : CustomResourceDefinition)
    (ds : List CustomResourceDefinition) (hf : f 0 = none) (hd : k.crd d.Name = none) :
    Istio.CreateCrds f k (d :: ds) = Istio.CreateCrds f.next (k.withCrd d) ds := by
  simp [Istio.CreateCrds, createCrd, hf, hd, Cluster.withCrd, Cluster.log]

theorem Cluster.withCrd_keeps (k : Cluster) (d x : CustomResourceDefinition) (n : String)
    (h : k.crd n = some x) : (k.withCrd d).crd n = some x := by
  have h2 : k.crds.find? (fun c => c.Name == n) = some x := h
  simp [Cluster.withCrd, Cluster.crd, List.find?_append, h2]

theorem Cluster.withCrd_self (k : Cluster) (d : CustomResourceDefinition)
    (h : k.crd d.Name = none) : (k.withCrd d).crd d.Name = some d := by
  have h2 : k.crds.find? (fun c => c.Name == d.Name) = none := h
  simp [Cluster.withCrd, Cluster.crd, List.find?_append, h2]

theorem Istio.CreateCrds_stores (f : Faults) (k : Cluster) (ds : List CustomResourceDefinition) :
    (Istio.CreateCrds f k ds).1.webhooks = k.webhooks ∧
    (Istio.CreateCrds f k ds).1.sccs = k.sccs := by
  induction ds generalizing f k with
  | nil => exact ⟨rfl, rfl⟩
  | cons d ds ih =>
    cases hf : f 0 with
    | some m => rw [Istio.CreateCrds_cons_fault _ _ _ _ m hf]; exact ⟨rfl, rfl⟩
    | none =>
      cases hd : k.crd d.Name with
      | none => rw [Istio.CreateCrds_cons_new _ _ _ _ hf hd]; exact ih _ _
      | some x =>
        rw [Istio.CreateCrds_cons_exists _ _ _ _ hf (by rw [hd]; rfl)]; exact ih _ _

theorem Istio.CreateCrds_keeps (f : Faults) (k : Cluster) (ds : List CustomResourceDefinition)
    (n : String) (x : CustomResourceDefinition) (h : k.crd n = some x) :
    (Istio.CreateCrds f k ds).1.crd n = some x := by
  induction ds generalizing f k with
  | nil => exact h
  | cons d ds ih =>
    cases hf : f 0 with
    | some m => rw [Istio.CreateCrds_cons_fault _ _ _ _ m hf]; exact h
    | none =>
      cases hd : k.crd d.Name with
      | none =>
        rw [Istio.CreateCrds_cons_new _ _ _ _ hf hd]
        exact ih _ _ (Cluster.withCrd_keeps k d x n h)
      | some y =>
        rw [Istio.CreateCrds_cons_exists _ _ _ _ hf (by rw [hd]; rfl)]
        exact ih _ _ h

theorem Istio.CreateCrds_registers (f : Faults) (k : Cluster)
    (ds : List CustomResourceDefinition) (h : (Istio.CreateCrds f k ds).2 = .nil) :
    ∀ d ∈ ds, ((Istio.CreateCrds f k ds).1.crd d.Name).isSome = true := by
  induction ds generalizing f k with
  | nil => intro d hd; cases hd
  | cons d ds ih =>
    cases hf : f 0 with
    | some m => rw [Istio.CreateCrds_cons_fault _ _ _ _ m hf] at h; cases h
    | none =>
      cases hd : k.crd d.Name with
      | none =>
        rw [Istio.CreateCrds_cons_new _ _ _ _ hf hd] at h ⊢
        intro e he
        rcases List.mem_cons.mp he with rfl | he
        · rw [Istio.CreateCrds_keeps _ _ _ _ _ (Cluster.withCrd_self k e hd)]; rfl
        · exact ih _ _ h e he
      | some y =>
        rw [Istio.CreateCrds_cons_exists _ _ _ _ hf (by rw [hd]; rfl)] at h ⊢
        intro e he
        rcases List.mem_cons.mp he with rfl | he
        · rw [Istio.CreateCrds_keeps f.next (k.log (.createCrd e.Name)) ds e.Name y hd]; rfl
        · exact ih _ _ h e he

theorem Istio.CreateCrds_present (f : Faults) (k : Cluster)
    (ds : List CustomResourceDefinition)
    (h : ∀ d ∈ ds, (k.crd d.Name).isSome = true) :
    (Istio.CreateCrds f k ds).1.crds = k.crds ∧
    ((∀ i, f i = none) → (Istio.CreateCrds f k ds).2 = .nil) := by
  induction ds generalizing f k with
  | nil => exact ⟨rfl, fun _ => rfl⟩
  | cons d ds ih =>
    have hd := h d (List.mem_cons_self d ds)
    have hrest : ∀ e ∈ ds, ((k.log (.createCrd d.Name)).crd e.Name).isSome = true :=
      fun e he => h e (List.mem_cons_of_mem d he)
    cases hf : f 0 with
    | some m =>
      rw [Istio.CreateCrds_cons_fault _ _ _ _ m hf]
      exact ⟨rfl, fun h0 => by rw [h0 0] at hf; cases hf⟩
    | none =>
      rw [Istio.CreateCrds_cons_exists _ _ _ _ hf hd]
      obtain ⟨h1, h2⟩ := ih f.next _ hrest
      exact ⟨h1, fun h0 => h2 (fun i => h0 (i + 1))⟩

theorem Istio.CreateCrds_outcome (f : Faults) (k : Cluster)
    (ds : List CustomResourceDefinition) :
    (Istio.CreateCrds f k ds).2 = .nil ∨
    ∃ m d i, d ∈ ds ∧ f i = some m ∧
      (Istio.CreateCrds f k ds).2 =
        .err (.wrap (.other m) ("failed to create crd " ++ d.Name)) := by
  induction ds generalizing f k with
  | nil => exact Or.inl rfl
  | cons d ds ih =>
    have step : ∀ k1 : Cluster, (Istio.CreateCrds f.next k1 ds).2 = .nil ∨
        ∃ m e i, e ∈ d :: ds ∧ f i = some m ∧
          (Istio.CreateCrds f.next k1 ds).2 =
            .err (.wrap (.other m) ("failed to create crd " ++ e.Name)) := by
      intro k1
      rcases ih f.next k1 with h | ⟨m, e, i, he, hi, hr⟩
      · exact Or.inl h
      · exact Or.inr ⟨m, e, i + 1, List.mem_cons_of_mem d he, hi, hr⟩
    cases hf : f 0 with
    | some m =>
      rw [Istio.CreateCrds_cons_fault _ _ _ _ m hf]
      exact Or.inr ⟨m, d, 0, List.mem_cons_self d ds, hf, rfl⟩
    | none =>
      cases hd : k.crd d.Name with
      | none => rw [Istio.CreateCrds_cons_new _ _ _ _ hf hd]; exact step _
      | some y =>
        rw [Istio.CreateCrds_cons_exists _ _ _ _ hf (by rw [hd]; rfl)]; exact step _

theorem Istio.CreateCrds_nodup (f : Faults) (k : Cluster)
    (ds : List CustomResourceDefinition) (h : (k.crds.map (fun c => c.Name)).Nodup) :
    ((Istio.CreateCrds f k ds).1.crds.map (fun c => c.Name)).Nodup := by
  induction ds generalizing f k with
  | nil => exact h
  | cons d ds ih =>
    cases hf : f 0 with
    | some m => rw [Istio.CreateCrds_cons_fault _ _ _ _ m hf]; exact h
    | none =>
      cases hd : k.crd d.Name with
      | none =>
        rw [Istio.CreateCrds_cons_new _ _ _ _ hf hd]
        apply ih
        have hd2 : k.crds.find? (fun c => c.Name == d.Name) = none := hd
        rw [List.find?_eq_none] at hd2
        simp only [Cluster.withCrd, List.map_append, List.map_cons, List.map_nil]
        rw [List.nodup_append]
        refine ⟨h, List.nodup_singleton _, ?_⟩
        intro a ha hb
        rw [List.mem_singleton] at hb
        obtain ⟨c, hc, hca⟩ := List.mem_map.mp ha
        exact hd2 c hc (by simp [hca, hb])
      | some y =>
        rw [Istio.CreateCrds_cons_exists _ _ _ _ hf (by rw [hd]; rfl)]
        exact ih _ _ h

theorem crd_count_one (l : List CustomResourceDefinition) (n : String)
    (hn : (l.map (fun c => c.Name)).Nodup)
    (h : (l.find? (fun c => c.Name == n)).isSome = true) :
    l.countP (fun c => c.Name == n) = 1 := by
  induction l with
  | nil => simp at h
  | cons x xs ih =>
    rw [List.map_cons, List.nodup_cons] at hn
    rw [List.countP_cons]
    by_cases hx : x.Name = n
    · have hz : xs.countP (fun c => c.Name == n) = 0 := by
        rw [List.countP_eq_zero]
        intro a ha hb
        apply hn.1
        rw [hx]
        exact List.mem_map.mpr ⟨a, ha, by simpa using hb⟩
      simp [hz, hx]
    · have e1 : (x.Name == n) = false := by simpa using hx
      rw [List.find?_cons, e1] at h
      simp [ih hn.2 h, hx]

theorem Istio.DoPreHelmInstall_no_client (c : Istio.IstioInstaller)
    (apiFaults sccFaults : Faults) (kube : Cluster) (hc : c.securityClient = none) :
    Istio.DoPreHelmInstall c apiFaults sccFaults kube =
      ((Istio.CreateCrds apiFaults kube c.crds).1,
        (Istio.CreateCrds apiFaults kube c.crds).2.wrap "creating istio crds") := by
  unfold Istio.DoPreHelmInstall
  rcases hr : Istio.CreateCrds apiFaults kube c.crds with ⟨k1, o⟩
  cases o <;> simp [hc, Outcome.wrap]

/-- C9: for an installer without security client.  If `DoPreHelmInstall` returns no
error, then every definition of the installer is registered (exactly once, when the
names registered before the call were distinct); a second call without injected failure
returns no error again, and a second call, whatever failures are injected, leaves the
registered definitions and the other stores as the first call left them.  On a cluster
in which every definition is registered already, the call without injected failure
returns no error and registers nothing.  A call never fails because a definition
exists: it returns no error, or the error of an injected failure of a create request,
wrapped with the name of the definition and then with "creating istio crds". -/
theorem crd_bootstrap_idempotent (c : Istio.IstioInstaller)
    (apiFaults apiFaults2 sccFaults sccFaults2 : Faults) (kube : Cluster)
    (hc : c.securityClient = none) :
    ((Istio.DoPreHelmInstall c apiFaults sccFaults kube).2 = .nil →
      (Istio.DoPreHelmInstall c noFaults sccFaults2
        (Istio.DoPreHelmInstall c apiFaults sccFaults kube).1).2 = .nil ∧
      (Istio.DoPreHelmInstall c apiFaults2 sccFaults2
        (Istio.DoPreHelmInstall c apiFaults sccFaults kube).1).1.crds =
          (Istio.DoPreHelmInstall c apiFaults sccFaults kube).1.crds ∧
      (Istio.DoPreHelmInstall c apiFaults2 sccFaults2
        (Istio.DoPreHelmInstall c apiFaults sccFaults kube).1).1.webhooks = kube.webhooks ∧
      (Istio.DoPreHelmInstall c apiFaults2 sccFaults2
        (Istio.DoPreHelmInstall c apiFaults sccFaults kube).1).1.sccs = kube.sccs ∧
      (∀ d ∈ c.crds,
        ((Istio.DoPreHelmInstall c apiFaults sccFaults kube).1.crd d.Name).isSome = true) ∧
      ((kube.crds.map (fun x => x.Name)).Nodup → ∀ d ∈ c.crds,
        (Istio.DoPreHelmInstall c apiFaults sccFaults kube).1.crds.countP
          (fun x => x.Name == d.Name) = 1)) ∧
    ((∀ d ∈ c.crds, (kube.crd d.Name).isSome = true) →
      (Istio.DoPreHelmInstall c noFaults sccFaults kube).2 = .nil ∧
      (Istio.DoPreHelmInstall c noFaults sccFaults kube).1.crds = kube.crds ∧
      (Istio.DoPreHelmInstall c noFaults sccFaults kube).1.webhooks = kube.webhooks ∧
      (Istio.DoPreHelmInstall c noFaults sccFaults kube).1.sccs = kube.sccs) ∧
    ((Istio.DoPreHelmInstall c apiFaults sccFaults kube).2 = .nil ∨
      ∃ m d i, d ∈ c.crds ∧ apiFaults i = some m ∧
        (Istio.DoPreHelmInstall c apiFaults sccFaults kube).2 =
          .err (.wrap (.wrap (.other m) ("failed to create crd " ++ d.Name))
            "creating istio crds")) := by
  simp only [Istio.DoPreHelmInstall_no_client _ _ _ _ hc]
  refine ⟨?_, ?_, ?_⟩
  · intro h
    have hnil : (Istio.CreateCrds apiFaults kube c.crds).2 = .nil := by
      cases ho : (Istio.CreateCrds apiFaults kube c.crds).2 with
      | nil => rfl
      | err e => rw [ho] at h; cases h
      | panic => rw [ho] at h; cases h
    have hreg := Istio.CreateCrds_registers apiFaults kube c.crds hnil
    have hst := Istio.CreateCrds_stores apiFaults kube c.crds
    refine ⟨?_, (Istio.CreateCrds_present apiFaults2 _ c.crds hreg).1, ?_, ?_, hreg, ?_⟩
    · rw [(Istio.CreateCrds_present noFaults _ c.crds hreg).2 (fun _ => rfl)]; rfl
    · rw [(Istio.CreateCrds_stores apiFaults2 _ c.crds).1, hst.1]
    · rw [(Istio.CreateCrds_stores apiFaults2 _ c.crds).2, hst.2]
    · intro hn d hd
      exact crd_count_one _ _ (Istio.CreateCrds_nodup apiFaults kube c.crds hn) (hreg d hd)
  · intro hall
    have hp := Istio.CreateCrds_present noFaults kube c.crds hall
    have hst := Istio.CreateCrds_stores noFaults kube c.crds
    refine ⟨?_, hp.1, hst.1, hst.2⟩
    rw [hp.2 (fun _ => rfl)]; rfl
  · rcases Istio.CreateCrds_outcome apiFaults kube c.crds with h | ⟨m, d, i, hd, hi, hr⟩
    · left; rw [h]; rfl
    · right; exact ⟨m, d, i, hd, hi, by rw [hr]; rfl⟩

/-- Witness of C9: `installerWithoutScc` on `clusterWithGateways`. -/
theorem crd_bootstrap_idempotent_witness :
    (Istio.DoPreHelmInstall installerWithoutScc noFaults noFaults
      (Istio.DoPreHelmInstall installerWithoutScc noFaults noFaults
        clusterWithGateways).1).2 = .nil ∧
    (Istio.DoPreHelmInstall installerWithoutScc noFaults noFaults clusterWithGateways).1.crds.countP
      (fun x => x.Name == "gateways.networking.istio.io") = 1 ∧
    (Istio.DoPreHelmInstall installerWithoutScc noFaults noFaults
      (Cluster.mk [] installerWithoutScc.crds [] [])).1.crds = installerWithoutScc.crds := by
  obtain ⟨h1, _, _, _, _, h6⟩ :=
    (crd_bootstrap_idempotent installerWithoutScc noFaults noFaults noFaults noFaults
      clusterWithGateways rfl).1 (by decide)
  obtain ⟨_, h7, _⟩ :=
    (crd_bootstrap_idempotent installerWithoutScc noFaults noFaults noFaults noFaults
      (Cluster.mk [] installerWithoutScc.crds [] []) rfl).2.1 (by decide)
  exact ⟨h1, h6 (by decide) ⟨"gateways.networking.istio.io", "schema of gateways"⟩ (by decide), h7⟩

/-! ## Post-install hooks -/

/-- C8 (the code departs from it): with `Encryption` absent, consul's
`DoPostHelmInstall` dereferences the nil pointer and panics, on `clusterAfterChart` with
release "relA" as on every cluster and release name.  With `Encryption` present and
`TlsEnabled = false` it returns no error, issues no request and leaves the cluster as
it is; so does istio's `DoPostHelmInstall` on every input. -/
theorem consul_post_install_without_encryption :
    Consul.DoPostHelmInstall noFaults ⟨none⟩ clusterAfterChart "relA" =
      (clusterAfterChart, .panic) ∧
    (∀ (faults : Faults) (kube : Cluster) (releaseName : String),
      Consul.DoPostHelmInstall faults ⟨none⟩ kube releaseName = (kube, .panic)) ∧
    (∀ (faults : Faults) (secret : Option ResourceRef) (kube : Cluster) (releaseName : String),
      Consul.DoPostHelmInstall faults ⟨some ⟨false, secret⟩⟩ kube releaseName = (kube, .nil)) ∧
    (∀ (c : Istio.IstioInstaller) (install : Install) (kube : Cluster) (releaseName : String),
      Istio.DoPostHelmInstall c install kube releaseName = (kube, .nil)) :=
  ⟨rfl, fun _ _ _ => rfl, fun _ _ _ _ => rfl, fun _ _ _ _ => rfl⟩

end Supergloo
